import Mathlib

/-!
Shallow embedding of the `pulse` event bus (`src/common/event.ts`) and the
disposable lifecycle utilities (`src/common/lifecycle.ts`).

Event keys are strings (`keyof Events` with `Events extends Record<string, any[]>`).
Listener functions are identified by natural-number ids; the code a listener
runs when invoked is a small action language covering the effects the
specification's claims quantify over: throwing, registering a listener,
and disposing a registration handle.  Emitted argument tuples are lists of
naturals.  JavaScript `Set` objects are modelled as insertion-ordered
duplicate-free lists carrying an identity (`sid`), because the disposal handle
returned by `on` closes over the concrete `Set` object, not over the key.
Observable console output and listener invocations form a trace of events.
-/

namespace Pulse

/-- Observable events: a dispatch loop firing a snapshot element, an actual
call of a listener function with arguments, a `console.warn` with its message,
and a `console.error` of a caught listener error. -/
inductive Ev where
  | fired (l : Nat) (args : List Nat)
  | invoked (l : Nat) (args : List Nat)
  | warn (msg : String)
  | errorLogged
  deriving DecidableEq

/-- Effects a listener body can perform, mirroring what the spec's claims
quantify over: throwing an exception, registering a listener (`bus.on`),
and disposing a registration handle (`handle.dispose()`). -/
inductive Action where
  | throwErr
  | onAct (k : String) (l : Nat)
  | disposeH (h : Nat)
  deriving DecidableEq

/-- The code of a listener function: either a plain body of actions, or the
wrapper created by `EventBus.once`, which calls the inner listener and then
disposes its own registration handle. -/
inductive LKind where
  | plain (body : List Action)
  | onceWrap (inner : Nat) (innerBody : List Action) (h : Nat)
  deriving DecidableEq

/-- A disposal handle returned by `on`: the closure
`() => listeners.delete(listener)` together with `FunctionDisposable`'s
`_isDisposed` flag.  `sid` is the identity of the captured `Set`. -/
structure Handle where
  sid : Nat
  lid : Nat
  isDisp : Bool
  deriving DecidableEq

/-- The closure passed to `queueMicrotask` by a deferred `emit`: it captures
the event key, the snapshot array (taken synchronously inside `emit`), and
the emitted arguments. -/
structure Thunk where
  key : String
  snap : List Nat
  args : List Nat
  deriving DecidableEq

/-- State of one `EventBus` instance plus the host's microtask queue.
`events` is the `_events` map from key to the identity of its listener `Set`;
`sets` maps set identities to their insertion-ordered members; `behaviors`
maps listener-function ids to their code; `handles` is the heap of
`FunctionDisposable` handles created by `on`. -/
structure Bus where
  events : List (String × Nat)
  sets : List (Nat × List Nat)
  firing : List String
  disposed : Bool
  sync : Bool
  behaviors : List (Nat × LKind)
  handles : List (Nat × Handle)
  nextSet : Nat
  nextHandle : Nat
  queue : List Thunk
  deriving DecidableEq

/-- Association-list lookup. -/
def alookup {β : Type} : List (String × β) → String → Option β
  | [], _ => none
  | (a, b) :: rest, k => if a = k then some b else alookup rest k

/-- Association-list lookup with `Nat` keys. -/
def nlookup {β : Type} : List (Nat × β) → Nat → Option β
  | [], _ => none
  | (a, b) :: rest, k => if a = k then some b else nlookup rest k

/-- Association-list update: overwrite the binding of `k`, or append it. -/
def nset {β : Type} : List (Nat × β) → Nat → β → List (Nat × β)
  | [], k, v => [(k, v)]
  | (a, b) :: rest, k, v => if a = k then (k, v) :: rest else (a, b) :: nset rest k v

/-- `Map.delete`: remove the binding of `k` (keys are unique). -/
def adel {β : Type} : List (String × β) → String → List (String × β)
  | [], _ => []
  | p :: rest, k => if p.1 = k then adel rest k else p :: adel rest k

/-- `Set.add`: append a member unless already present (insertion order kept). -/
def addMem (m : Nat) (ms : List Nat) : List Nat :=
  if m ∈ ms then ms else ms ++ [m]

/-- Members of the set with identity `sid` (empty if no such set). -/
def getMembers (st : Bus) (sid : Nat) : List Nat :=
  (nlookup st.sets sid).getD []

/-- The message of the error thrown by `_checkDisposed`. -/
def busErr : String := "EventBus has been disposed"

/-- The `console.warn` message for a reentrant emit of key `k`. -/
def recursiveWarn (k : String) : String :=
  "Recursive emit detected for event \"" ++ k ++ "\""

/-- `FunctionDisposable`'s warning on a second `dispose()`. -/
def warnDisposable : String :=
  "Trying to dispose a disposed disposable. This is probably a bug."

/-- `DisposableStore`'s warning when adding to a disposed store. -/
def warnAddStore : String :=
  "Trying to add a disposable to a disposed store. This is probably a bug."

/-- `DisposableStore`'s warning on a second `dispose()`. -/
def warnStoreDispose : String :=
  "Trying to dispose a disposed store. This is probably a bug."

/-- `EventBus.on`: check disposed, lazily create the key's `Set`, add the
listener, and return a fresh `FunctionDisposable` handle (its id). -/
def onCore (k : String) (l : Nat) (st : Bus) : Except String (Bus × Nat) :=
  if st.disposed then .error busErr
  else
    match alookup st.events k with
    | some sid =>
        .ok ({ st with
                 sets := nset st.sets sid (addMem l (getMembers st sid)),
                 handles := nset st.handles st.nextHandle ⟨sid, l, false⟩,
                 nextHandle := st.nextHandle + 1 }, st.nextHandle)
    | none =>
        .ok ({ st with
                 events := st.events ++ [(k, st.nextSet)],
                 sets := nset st.sets st.nextSet [l],
                 nextSet := st.nextSet + 1,
                 handles := nset st.handles st.nextHandle ⟨st.nextSet, l, false⟩,
                 nextHandle := st.nextHandle + 1 }, st.nextHandle)

/-- `EventBus.on` as called by a user: the listener function `l` with code
`body` exists before registration. -/
def onUser (k : String) (l : Nat) (body : List Action) (st : Bus) :
    Except String (Bus × Nat) :=
  onCore k l { st with behaviors := nset st.behaviors l (.plain body) }

/-- `EventBus.once`: register a fresh wrapper function `w` via `on`; the
wrapper invokes `inner` and then disposes the handle returned by `on`. -/
def onceBus (k : String) (w : Nat) (inner : Nat) (innerBody : List Action)
    (st : Bus) : Except String (Bus × Nat) :=
  match onCore k w st with
  | .error e => .error e
  | .ok (st1, h) =>
      .ok ({ st1 with behaviors := nset st1.behaviors w (.onceWrap inner innerBody h) }, h)

/-- Dispose a handle: `FunctionDisposable.dispose`, whose bound function is
`() => listeners.delete(listener)` on the captured `Set`. -/
def hDispose (h : Nat) (st : Bus) : Bus × List Ev :=
  match nlookup st.handles h with
  | none => (st, [])
  | some hd =>
      if hd.isDisp then (st, [Ev.warn warnDisposable])
      else
        ({ st with
             sets := nset st.sets hd.sid ((getMembers st hd.sid).erase hd.lid),
             handles := nset st.handles h ⟨hd.sid, hd.lid, true⟩ }, [])

/-- Code of listener `l` (a function id never registered behaves inertly). -/
def behaviorOf (st : Bus) (l : Nat) : LKind :=
  (nlookup st.behaviors l).getD (.plain [])

/-- Run one action of a listener body; the `Bool` is whether it threw.
Registering on a disposed bus makes `on` throw inside the listener. -/
def runAction (a : Action) (st : Bus) : Bus × List Ev × Bool :=
  match a with
  | .throwErr => (st, [], true)
  | .disposeH h => ((hDispose h st).1, (hDispose h st).2, false)
  | .onAct k l =>
      match onCore k l st with
      | .ok (st1, _) => (st1, [], false)
      | .error _ => (st, [], true)

/-- Run a listener body sequentially; a throw aborts the rest of the body. -/
def runBody : List Action → Bus → Bus × List Ev × Bool
  | [], st => (st, [], false)
  | a :: rest, st =>
      if (runAction a st).2.2 then runAction a st
      else ((runBody rest (runAction a st).1).1,
            (runAction a st).2.1 ++ (runBody rest (runAction a st).1).2.1,
            (runBody rest (runAction a st).1).2.2)

/-- Call listener function `l` with `args`.  A `once` wrapper calls the inner
listener first and only disposes its own handle if the inner call returned
normally; an inner throw propagates out of the wrapper. -/
def runListener (l : Nat) (args : List Nat) (st : Bus) : Bus × List Ev × Bool :=
  match behaviorOf st l with
  | .plain body => runBody body st
  | .onceWrap inner innerBody h =>
      if (runBody innerBody st).2.2 then
        ((runBody innerBody st).1,
         Ev.invoked inner args :: (runBody innerBody st).2.1, true)
      else
        ((hDispose h (runBody innerBody st).1).1,
         Ev.invoked inner args ::
           ((runBody innerBody st).2.1 ++ (hDispose h (runBody innerBody st).1).2),
         false)

/-- The `for` loop of `invoke`: call each snapshot element in order, each
individually wrapped in `try`/`catch` that logs a thrown error. -/
def dispatchSnap : List Nat → List Nat → Bus → Bus × List Ev
  | [], _, st => (st, [])
  | l :: rest, args, st =>
      ((dispatchSnap rest args (runListener l args st).1).1,
       Ev.fired l args :: Ev.invoked l args ::
         (((runListener l args st).2.1 ++
             if (runListener l args st).2.2 then [Ev.errorLogged] else []) ++
           (dispatchSnap rest args (runListener l args st).1).2))

/-- `Set.add` on the firing set of string keys. -/
def addFiring (k : String) (f : List String) : List String :=
  if k ∈ f then f else f ++ [k]

/-- The `invoke` closure of `emit`: mark the key as firing, run the snapshot,
and unmark in a `finally`. -/
def invokeSnap (k : String) (snap : List Nat) (args : List Nat) (st : Bus) :
    Bus × List Ev :=
  ({ (dispatchSnap snap args { st with firing := addFiring k st.firing }).1 with
       firing := (dispatchSnap snap args
                    { st with firing := addFiring k st.firing }).1.firing.erase k },
   (dispatchSnap snap args { st with firing := addFiring k st.firing }).2)

/-- `EventBus.emit`: check disposed, reentrancy guard, lookup, empty check,
snapshot, then either invoke inline (sync) or enqueue the invoke closure as a
microtask (deferred). -/
def emitBus (k : String) (args : List Nat) (st : Bus) :
    Except String (Bus × List Ev) :=
  if st.disposed then .error busErr
  else if k ∈ st.firing then .ok (st, [Ev.warn (recursiveWarn k)])
  else
    match alookup st.events k with
    | none => .ok (st, [])
    | some sid =>
        let snap := getMembers st sid
        if snap = [] then .ok (st, [])
        else if st.sync then .ok (invokeSnap k snap args st)
        else .ok ({ st with queue := st.queue ++ [⟨k, snap, args⟩] }, [])

/-- `EventBus.dispose`: with a truthy key, delete only that key's map entry;
with no key — or a falsy key such as `""`, since the source tests the
argument with `if (event)` — clear the map and mark the bus disposed. -/
def disposeBus (e : Option String) (st : Bus) : Except String (Bus × List Ev) :=
  if st.disposed then .error busErr
  else
    match e with
    | some k =>
        if k = "" then .ok ({ st with events := [], disposed := true }, [])
        else .ok ({ st with events := adel st.events k }, [])
    | none => .ok ({ st with events := [], disposed := true }, [])

/-- Run one queued microtask. -/
def runThunk (t : Thunk) (st : Bus) : Bus × List Ev :=
  invokeSnap t.key t.snap t.args st

/-- Run a list of queued microtasks in FIFO order. -/
def runThunks : List Thunk → Bus → Bus × List Ev
  | [], st => (st, [])
  | t :: rest, st =>
      ((runThunks rest (runThunk t st).1).1,
       (runThunk t st).2 ++ (runThunks rest (runThunk t st).1).2)

/-- Drain the microtask queue (yield to the scheduler).  The modelled thunks
never enqueue further microtasks, so one FIFO pass drains the queue. -/
def runMicrotasks (st : Bus) : Bus × List Ev :=
  runThunks st.queue { st with queue := [] }

/-- A fresh bus in the given dispatch mode (`sync: false` is the default). -/
def mkBus (sync : Bool) : Bus :=
  ⟨[], [], [], false, sync, [], [], 0, 0, []⟩

/-- Top-level API calls a client program can make, plus yielding to the
microtask scheduler. -/
inductive Op where
  | on (k : String) (l : Nat) (body : List Action)
  | once (k : String) (w : Nat) (inner : Nat) (innerBody : List Action)
  | emit (k : String) (args : List Nat)
  | disposeH (h : Nat)
  | dispose (e : Option String)
  | micro
  deriving DecidableEq

/-- Step one top-level operation. -/
def stepOp (op : Op) (st : Bus) : Except String (Bus × List Ev) :=
  match op with
  | .on k l body =>
      match onUser k l body st with
      | .ok (st1, _) => .ok (st1, [])
      | .error e => .error e
  | .once k w inner innerBody =>
      match onceBus k w inner innerBody st with
      | .ok (st1, _) => .ok (st1, [])
      | .error e => .error e
  | .emit k args => emitBus k args st
  | .disposeH h => .ok (hDispose h st)
  | .dispose e => disposeBus e st
  | .micro => .ok (runMicrotasks st)

/-- Run a client program; an uncaught thrown error aborts it. -/
def runOps : List Op → Bus → Except String (Bus × List Ev)
  | [], st => .ok (st, [])
  | op :: rest, st =>
      match stepOp op st with
      | .error e => .error e
      | .ok (st1, tr1) =>
          match runOps rest st1 with
          | .error e => .error e
          | .ok (st2, tr2) => .ok (st2, tr1 ++ tr2)

/-- The trace of a program run (empty if it aborted). -/
def traceOf : Except String (Bus × List Ev) → List Ev
  | .ok (_, tr) => tr
  | .error _ => []

/-- The final state of a program run (a fresh sync bus if it aborted). -/
def stateOf : Except String (Bus × List Ev) → Bus
  | .ok (st, _) => st
  | .error _ => mkBus true

/-- The listeners fired by dispatch loops in a trace, with their arguments. -/
def firedOf (tr : List Ev) : List (Nat × List Nat) :=
  tr.filterMap fun e =>
    match e with
    | .fired l args => some (l, args)
    | _ => none

/-- How many times listener function `l` was actually called in a trace. -/
def invokedCount (l : Nat) (tr : List Ev) : Nat :=
  tr.countP fun e =>
    match e with
    | .invoked m _ => m == l
    | _ => false

/-! ### Lifecycle utilities (`src/common/lifecycle.ts`)

`FunctionDisposable` is modelled by its observable state: whether `_fn` is a
bound function (always true for the handles produced by `toDisposable`), how
many times `_fn` has run, and the `_isDisposed` flag.  A `DisposableStore`
holds ids into a heap of such function disposables; the source's guard
against adding a store to itself concerns store-typed members and never
triggers for the function-disposable members modelled here. -/

/-- The message of the error thrown when `_fn` is unbound. -/
def unboundMsg : String :=
  "Unbound disposable context: Need to use an arrow function to preserve the value of this"

/-- Observable state of a `FunctionDisposable`. -/
structure FDisp where
  bound : Bool
  runs : Nat
  isDisp : Bool
  deriving DecidableEq

/-- `FunctionDisposable.dispose`: warn and return if already disposed; throw
if `_fn` is unbound; otherwise run `_fn` and mark disposed. -/
def FDisp.dispose (d : FDisp) : Except String (FDisp × List Ev) :=
  if d.isDisp then .ok (d, [Ev.warn warnDisposable])
  else if d.bound then .ok ({ d with runs := d.runs + 1, isDisp := true }, [])
  else .error unboundMsg

/-- Observable state of a `DisposableStore`. -/
structure DStore where
  items : List Nat
  disposed : Bool
  deriving DecidableEq

/-- Dispose the disposable with id `d` in the heap. -/
def envDispose (env : Nat → FDisp) (d : Nat) :
    Except String ((Nat → FDisp) × List Ev) :=
  match FDisp.dispose (env d) with
  | .ok (d1, tr) => .ok (fun n => if n = d then d1 else env n, tr)
  | .error e => .error e

/-- `DisposableStore.add`: if the store is disposed, warn and dispose the
candidate immediately instead of retaining it; otherwise retain it.  The
candidate is returned either way. -/
def storeAdd (s : DStore) (env : Nat → FDisp) (d : Nat) :
    Except String ((DStore × (Nat → FDisp)) × List Ev × Nat) :=
  if s.disposed then
    match envDispose env d with
    | .ok (env1, tr) => .ok ((s, env1), Ev.warn warnAddStore :: tr, d)
    | .error e => .error e
  else .ok (({ s with items := addMem d s.items }, env), [], d)

/-- The store's `forEach(d => d.dispose())` over its members in insertion
order; an uncaught throw aborts the loop. -/
def storeItemsDispose : List Nat → (Nat → FDisp) → Except String ((Nat → FDisp) × List Ev)
  | [], env => .ok (env, [])
  | d :: rest, env =>
      match envDispose env d with
      | .ok (env1, tr1) =>
          match storeItemsDispose rest env1 with
          | .ok (env2, tr2) => .ok (env2, tr1 ++ tr2)
          | .error e => .error e
      | .error e => .error e

/-- `DisposableStore.dispose`: warn and return if already disposed; otherwise
dispose every member, clear the member set, and mark the store disposed. -/
def storeDispose (s : DStore) (env : Nat → FDisp) :
    Except String ((DStore × (Nat → FDisp)) × List Ev) :=
  if s.disposed then .ok ((s, env), [Ev.warn warnStoreDispose])
  else
    match storeItemsDispose s.items env with
    | .ok (env1, tr) => .ok ((⟨[], true⟩, env1), tr)
    | .error e => .error e

/-! ### Spec-modelled deferred dispatch

The specification schedules steps 3 to 5 of `emit` — taking the snapshot as
well as marking the firing set and invoking the listeners — as one deferred
unit.  The source instead takes the snapshot synchronously inside `emit` and
defers only the marking and invoking.  The following definitions are
modelled from the spec's words, for comparison with `emitBus`: the thunk
enqueued by a deferred emission remembers the key and the identity of its
listener collection, and the snapshot is taken only when the thunk runs. -/

/-- Modelled from the spec: a deferred emission unit that has not yet taken
its snapshot.  It records the event key, the identity of the listener
collection looked up at emit time, and the emitted arguments. -/
structure SThunk where
  key : String
  sid : Nat
  args : List Nat
  deriving DecidableEq

/-- Modelled from the spec: deferred `emit` in which steps 1 and 2 (the
reentrancy guard and the collection lookup with its empty check) run
synchronously, while the snapshot is deferred into the enqueued unit. -/
def emitSpecDeferred (k : String) (args : List Nat) (st : Bus) (q : List SThunk) :
    Except String (Bus × List SThunk × List Ev) :=
  if st.disposed then .error busErr
  else if k ∈ st.firing then .ok (st, q, [Ev.warn (recursiveWarn k)])
  else
    match alookup st.events k with
    | none => .ok (st, q, [])
    | some sid =>
        if getMembers st sid = [] then .ok (st, q, [])
        else .ok (st, q ++ [⟨k, sid, args⟩], [])

/-- Modelled from the spec: running a deferred unit takes the snapshot of the
listener collection at that moment and then marks, fires, and unmarks. -/
def runSThunk (t : SThunk) (st : Bus) : Bus × List Ev :=
  invokeSnap t.key (getMembers st t.sid) t.args st

/-- Modelled from the spec: drain the spec-variant microtask queue in FIFO
order. -/
def runSThunks : List SThunk → Bus → Bus × List Ev
  | [], st => (st, [])
  | t :: rest, st =>
      ((runSThunks rest (runSThunk t st).1).1,
       (runSThunk t st).2 ++ (runSThunks rest (runSThunk t st).1).2)

/-! ### Concrete scenarios used to settle claims on explicit inputs -/

/-- Deferred-mode bus; one `once` listener (wrapper id 100, user listener id
1); two emissions of its key in the same tick; then yield to the scheduler. -/
def c1prog : List Op :=
  [Op.once "foo" 100 1 [], Op.emit "foo" [1], Op.emit "foo" [2], Op.micro]

/-- Deferred-mode bus; register listener 1; emit; dispose the registration
handle before any microtask has run; then yield to the scheduler. -/
def c2prog : List Op :=
  [Op.on "foo" 1 [], Op.emit "foo" [5], Op.disposeH 0, Op.micro]

/-- The trace of the `c2prog` scenario under the spec-modelled deferred
dispatch, in which the deferred unit takes its snapshot when it runs. -/
def c2SpecTrace : List Ev :=
  match onUser "foo" 1 [] (mkBus false) with
  | .error _ => []
  | .ok (st1, h) =>
      match emitSpecDeferred "foo" [5] st1 [] with
      | .error _ => []
      | .ok (st2, q, tr1) =>
          match hDispose h st2 with
          | (st3, tr2) =>
              match runSThunks q st3 with
              | (_, tr3) => tr1 ++ tr2 ++ tr3

/-- A sync-mode bus with listener 1 on the empty-string key and listener 2 on
key `"x"`. -/
def c3bus : Bus :=
  stateOf (runOps [Op.on "" 1 [], Op.on "x" 2 []] (mkBus true))

/-- The same `once` scenario as `c1prog` but on a sync-mode bus, where the
two emissions dispatch inline one after the other. -/
def c1syncProg : List Op :=
  [Op.once "foo" 100 1 [], Op.emit "foo" [1], Op.emit "foo" [2]]

/-- A deferred-mode bus with plain listener 1 registered on `"foo"`. -/
def c2wBus : Bus :=
  stateOf (runOps [Op.on "foo" 1 []] (mkBus false))

/-- A sync-mode bus with two listeners on `"foo"`; during dispatch the first
listener disposes the second listener's registration handle (handle 1). -/
def c4bus : Bus :=
  stateOf (runOps [Op.on "foo" 1 [Action.disposeH 1], Op.on "foo" 2 []] (mkBus true))

/-- A sync-mode bus with two listeners on `"foo"`; the first listener throws. -/
def c5bus : Bus :=
  stateOf (runOps [Op.on "foo" 1 [Action.throwErr], Op.on "foo" 2 []] (mkBus true))

/-! ### Association-list facts -/

theorem nlookup_nset_self {β : Type} (l : List (Nat × β)) (k : Nat) (v : β) :
    nlookup (nset l k v) k = some v := by
  induction l with
  | nil => simp [nset, nlookup]
  | cons p rest ih =>
      by_cases h : p.1 = k
      · simp [nset, h, nlookup]
      · simp [nset, h, nlookup, ih]

theorem nlookup_nset_ne {β : Type} (l : List (Nat × β)) (k k' : Nat) (v : β)
    (h : k' ≠ k) : nlookup (nset l k v) k' = nlookup l k' := by
  have hk : ¬ k = k' := fun hh => h (Eq.symm hh)
  induction l with
  | nil => simp [nset, nlookup, hk]
  | cons p rest ih =>
      by_cases hp : p.1 = k
      · subst hp
        simp [nset, nlookup, hk]
      · simp [nset, hp, nlookup, ih]

theorem alookup_append_of_none {β : Type} (l1 l2 : List (String × β)) (k : String)
    (h : alookup l1 k = none) : alookup (l1 ++ l2) k = alookup l2 k := by
  induction l1 with
  | nil => simp
  | cons p rest ih =>
      by_cases hp : p.1 = k
      · simp [alookup, hp] at h
      · simp [alookup, hp] at h ⊢
        exact ih h

theorem alookup_adel_self {β : Type} (l : List (String × β)) (k : String) :
    alookup (adel l k) k = none := by
  induction l with
  | nil => simp [adel, alookup]
  | cons p rest ih =>
      by_cases hp : p.1 = k
      · simp [adel, hp, ih]
      · simp [adel, hp, alookup, ih]

theorem alookup_adel_ne {β : Type} (l : List (String × β)) (k k2 : String)
    (h : k2 ≠ k) : alookup (adel l k) k2 = alookup l k2 := by
  induction l with
  | nil => simp [adel]
  | cons p rest ih =>
      by_cases hp : p.1 = k
      · have hk : ¬ k = k2 := fun hh => h (Eq.symm hh)
        simp [adel, hp, alookup, hk, ih]
      · simp [adel, hp, alookup, ih]

/-! ### Bus-state components preserved by listener side effects

Listener bodies can only register listeners and dispose handles; neither
touches the disposed flag, the firing set, the dispatch mode, or the
function-code table. -/

theorem onCore_state (k : String) (l : Nat) (st st1 : Bus) (hh : Nat)
    (he : onCore k l st = .ok (st1, hh)) :
    st1.disposed = st.disposed ∧ st1.firing = st.firing ∧
    st1.sync = st.sync ∧ st1.behaviors = st.behaviors := by
  unfold onCore at he
  by_cases hd : st.disposed
  · simp [hd] at he
  · cases hev : alookup st.events k <;> simp [hd, hev] at he <;>
      obtain ⟨h1, h2⟩ := he <;> subst h1 <;> exact ⟨by simp [hd], rfl, rfl, rfl⟩

theorem hDispose_state (h : Nat) (st : Bus) :
    (hDispose h st).1.disposed = st.disposed ∧ (hDispose h st).1.firing = st.firing ∧
    (hDispose h st).1.sync = st.sync ∧ (hDispose h st).1.behaviors = st.behaviors := by
  unfold hDispose
  cases hh : nlookup st.handles h with
  | none => simp
  | some hd => by_cases hdisp : hd.isDisp <;> simp [hdisp]

theorem runAction_state (a : Action) (st : Bus) :
    (runAction a st).1.disposed = st.disposed ∧ (runAction a st).1.firing = st.firing ∧
    (runAction a st).1.sync = st.sync ∧ (runAction a st).1.behaviors = st.behaviors := by
  cases a with
  | throwErr => simp [runAction]
  | disposeH h => simpa [runAction] using hDispose_state h st
  | onAct k l =>
      cases ho : onCore k l st with
      | error e => simp [runAction, ho]
      | ok r => simpa [runAction, ho] using onCore_state k l st r.1 r.2 (by rw [ho])

theorem runBody_state (body : List Action) (st : Bus) :
    (runBody body st).1.disposed = st.disposed ∧ (runBody body st).1.firing = st.firing ∧
    (runBody body st).1.sync = st.sync ∧ (runBody body st).1.behaviors = st.behaviors := by
  induction body generalizing st with
  | nil => simp [runBody]
  | cons a rest ih =>
      by_cases hth : (runAction a st).2.2
      · simpa [runBody, hth] using runAction_state a st
      · have h1 := runAction_state a st
        have h2 := ih (runAction a st).1
        simp only [runBody, hth, if_false]
        exact ⟨h2.1.trans h1.1, h2.2.1.trans h1.2.1,
               h2.2.2.1.trans h1.2.2.1, h2.2.2.2.trans h1.2.2.2⟩

theorem runListener_state (l : Nat) (args : List Nat) (st : Bus) :
    (runListener l args st).1.disposed = st.disposed ∧
    (runListener l args st).1.firing = st.firing ∧
    (runListener l args st).1.sync = st.sync ∧
    (runListener l args st).1.behaviors = st.behaviors := by
  unfold runListener
  cases hb : behaviorOf st l with
  | plain body => simpa using runBody_state body st
  | onceWrap inner innerBody h =>
      by_cases hth : (runBody innerBody st).2.2
      · simpa [hth] using runBody_state innerBody st
      · have h1 := runBody_state innerBody st
        have h2 := hDispose_state h (runBody innerBody st).1
        simp only [hth, if_false]
        exact ⟨h2.1.trans h1.1, h2.2.1.trans h1.2.1,
               h2.2.2.1.trans h1.2.2.1, h2.2.2.2.trans h1.2.2.2⟩

theorem behaviorOf_congr (st1 st : Bus) (m : Nat) (h : st1.behaviors = st.behaviors) :
    behaviorOf st1 m = behaviorOf st m := by
  simp [behaviorOf, h]

theorem dispatchSnap_state (snap : List Nat) (args : List Nat) (st : Bus) :
    (dispatchSnap snap args st).1.disposed = st.disposed ∧
    (dispatchSnap snap args st).1.firing = st.firing ∧
    (dispatchSnap snap args st).1.sync = st.sync ∧
    (dispatchSnap snap args st).1.behaviors = st.behaviors := by
  induction snap generalizing st with
  | nil => simp [dispatchSnap]
  | cons l rest ih =>
      have h1 := runListener_state l args st
      have h2 := ih (runListener l args st).1
      simp only [dispatchSnap]
      exact ⟨h2.1.trans h1.1, h2.2.1.trans h1.2.1,
             h2.2.2.1.trans h1.2.2.1, h2.2.2.2.trans h1.2.2.2⟩

/-! ### The fired events of a dispatch are exactly its snapshot -/

theorem firedOf_nil : firedOf [] = [] := rfl

theorem firedOf_append (a b : List Ev) : firedOf (a ++ b) = firedOf a ++ firedOf b :=
  List.filterMap_append a b _

theorem firedOf_cons_fired (l : Nat) (args : List Nat) (rest : List Ev) :
    firedOf (Ev.fired l args :: rest) = (l, args) :: firedOf rest := by
  simp [firedOf]

theorem firedOf_cons_invoked (l : Nat) (args : List Nat) (rest : List Ev) :
    firedOf (Ev.invoked l args :: rest) = firedOf rest := by
  simp [firedOf]

theorem firedOf_cons_warn (m : String) (rest : List Ev) :
    firedOf (Ev.warn m :: rest) = firedOf rest := by
  simp [firedOf]

theorem firedOf_cons_error (rest : List Ev) :
    firedOf (Ev.errorLogged :: rest) = firedOf rest := by
  simp [firedOf]

theorem hDispose_fired (h : Nat) (st : Bus) : firedOf (hDispose h st).2 = [] := by
  unfold hDispose
  cases hh : nlookup st.handles h with
  | none => simp [firedOf_nil]
  | some hd =>
      by_cases hdisp : hd.isDisp <;> simp [hdisp, firedOf_cons_warn, firedOf_nil]

theorem runAction_fired (a : Action) (st : Bus) : firedOf (runAction a st).2.1 = [] := by
  cases a with
  | throwErr => simp [runAction, firedOf_nil]
  | disposeH h => simpa [runAction] using hDispose_fired h st
  | onAct k l => cases ho : onCore k l st <;> simp [runAction, ho, firedOf_nil]

theorem runBody_fired (body : List Action) (st : Bus) :
    firedOf (runBody body st).2.1 = [] := by
  induction body generalizing st with
  | nil => simp [runBody, firedOf_nil]
  | cons a rest ih =>
      by_cases hth : (runAction a st).2.2
      · simpa [runBody, hth] using runAction_fired a st
      · simp [runBody, hth, firedOf_append, runAction_fired, ih]

theorem runListener_fired (l : Nat) (args : List Nat) (st : Bus) :
    firedOf (runListener l args st).2.1 = [] := by
  unfold runListener
  cases hb : behaviorOf st l with
  | plain body => simpa using runBody_fired body st
  | onceWrap inner innerBody h =>
      by_cases hth : (runBody innerBody st).2.2
      · simp [hth, firedOf_cons_invoked, runBody_fired]
      · simp [hth, firedOf_cons_invoked, firedOf_append, runBody_fired, hDispose_fired]

theorem dispatchSnap_fired (snap : List Nat) (args : List Nat) (st : Bus) :
    firedOf (dispatchSnap snap args st).2 = snap.map (fun l => (l, args)) := by
  induction snap generalizing st with
  | nil => simp [dispatchSnap, firedOf_nil]
  | cons l rest ih =>
      by_cases hth : (runListener l args st).2.2 <;>
        simp [dispatchSnap, hth, firedOf_cons_fired, firedOf_cons_invoked,
              firedOf_cons_error, firedOf_append, firedOf_nil, runListener_fired, ih]

theorem invokeSnap_fired (k : String) (snap : List Nat) (args : List Nat) (st : Bus) :
    firedOf (invokeSnap k snap args st).2 = snap.map (fun l => (l, args)) := by
  simp [invokeSnap, dispatchSnap_fired]

theorem invokeSnap_firing (k : String) (snap : List Nat) (args : List Nat) (st : Bus)
    (hf : k ∉ st.firing) :
    (invokeSnap k snap args st).1.firing = st.firing := by
  simp only [invokeSnap]
  rw [(dispatchSnap_state snap args { st with firing := addFiring k st.firing }).2.1]
  show (addFiring k st.firing).erase k = st.firing
  rw [addFiring, if_neg hf, List.erase_append_right _ hf, List.erase_cons_head,
      List.append_nil]

theorem invokeSnap_state (k : String) (snap : List Nat) (args : List Nat) (st : Bus) :
    (invokeSnap k snap args st).1.disposed = st.disposed ∧
    (invokeSnap k snap args st).1.sync = st.sync ∧
    (invokeSnap k snap args st).1.behaviors = st.behaviors := by
  have h := dispatchSnap_state snap args { st with firing := addFiring k st.firing }
  simp only [invokeSnap]
  exact ⟨h.1, h.2.2.1, h.2.2.2⟩

/-! ### Throwing listeners -/

theorem runAction_notThrow (a : Action) (st : Bus) (hd : st.disposed = false)
    (ha : a ≠ Action.throwErr) : (runAction a st).2.2 = false := by
  cases a with
  | throwErr => exact absurd rfl ha
  | disposeH h => simp [runAction]
  | onAct k l =>
      cases hev : alookup st.events k with
      | none => simp [runAction, onCore, hd, hev]
      | some sid => simp [runAction, onCore, hd, hev]

theorem runBody_throws (body : List Action) (st : Bus) (hd : st.disposed = false)
    (hmem : Action.throwErr ∈ body) : (runBody body st).2.2 = true := by
  induction body generalizing st with
  | nil => cases hmem
  | cons a rest ih =>
      by_cases ha : a = Action.throwErr
      · subst ha
        simp [runBody, runAction]
      · have hmem2 : Action.throwErr ∈ rest := by
          cases hmem with
          | head => exact absurd rfl ha
          | tail _ hm => exact hm
        have hnt := runAction_notThrow a st hd ha
        have hd1 : (runAction a st).1.disposed = false :=
          (runAction_state a st).1.trans hd
        simp [runBody, hnt, ih (runAction a st).1 hd1 hmem2]

theorem dispatchSnap_errorLogged (snap : List Nat) (args : List Nat) (st : Bus)
    (j : Nat) (hj : j < snap.length) (b : List Action)
    (hd : st.disposed = false)
    (hb : behaviorOf st (snap.get ⟨j, hj⟩) = .plain b)
    (hmem : Action.throwErr ∈ b) :
    Ev.errorLogged ∈ (dispatchSnap snap args st).2 := by
  induction snap generalizing st j with
  | nil => exact absurd hj (Nat.not_lt_zero j)
  | cons l rest ih =>
      cases j with
      | zero =>
          have hth : (runListener l args st).2.2 = true := by
            have hbl : behaviorOf st l = .plain b := hb
            unfold runListener
            rw [hbl]
            exact runBody_throws b st hd hmem
          simp only [dispatchSnap, hth, if_true, ite_true]
          exact List.mem_cons_of_mem _ (List.mem_cons_of_mem _
            (List.mem_append_left _ (List.mem_append_right _
              (List.mem_singleton.mpr rfl))))
      | succ j2 =>
          have hj2 : j2 < rest.length := Nat.lt_of_succ_lt_succ hj
          have hd1 : (runListener l args st).1.disposed = false :=
            (runListener_state l args st).1.trans hd
          have hb1 : behaviorOf (runListener l args st).1 (rest.get ⟨j2, hj2⟩) = .plain b := by
            rw [behaviorOf_congr (runListener l args st).1 st _
                  (runListener_state l args st).2.2.2]
            exact hb
          have hrec := ih (runListener l args st).1 j2 hj2 hd1 hb1
          simp only [dispatchSnap]
          exact List.mem_cons_of_mem _ (List.mem_cons_of_mem _
            (List.mem_append_right _ hrec))

/-! ### Branch characterizations of emit and friends -/

theorem emitBus_sync_eq (st : Bus) (k : String) (args : List Nat) (sid : Nat)
    (hd : st.disposed = false) (hf : k ∉ st.firing) (hs : st.sync = true)
    (he : alookup st.events k = some sid) (hne : getMembers st sid ≠ []) :
    emitBus k args st = .ok (invokeSnap k (getMembers st sid) args st) := by
  simp [emitBus, hd, hf, he, hne, hs]

theorem emitBus_deferred_eq (st : Bus) (k : String) (args : List Nat) (sid : Nat)
    (hd : st.disposed = false) (hf : k ∉ st.firing) (hs : st.sync = false)
    (he : alookup st.events k = some sid) (hne : getMembers st sid ≠ []) :
    emitBus k args st =
      .ok ({ st with queue := st.queue ++ [⟨k, getMembers st sid, args⟩] }, []) := by
  simp [emitBus, hd, hf, he, hne, hs]

theorem onCore_ok (k : String) (l : Nat) (st : Bus) (hd : st.disposed = false) :
    ∃ r, onCore k l st = .ok r := by
  cases hev : alookup st.events k with
  | none =>
      simp only [onCore, hd, hev]
      exact ⟨_, rfl⟩
  | some sid =>
      simp only [onCore, hd, hev]
      exact ⟨_, rfl⟩

theorem emitBus_ok (k : String) (args : List Nat) (st : Bus)
    (hd : st.disposed = false) : ∃ r, emitBus k args st = .ok r := by
  by_cases hf : k ∈ st.firing
  · simp only [emitBus, hd, hf]
    exact ⟨_, rfl⟩
  · cases hev : alookup st.events k with
    | none =>
        simp only [emitBus, hd, hf, hev]
        exact ⟨_, rfl⟩
    | some sid =>
        by_cases hne : getMembers st sid = []
        · simp only [emitBus, hd, hf, hev, hne]
          exact ⟨_, rfl⟩
        · by_cases hs : st.sync
          · simp only [emitBus, hd, hf, hev, hne, hs]
            exact ⟨_, rfl⟩
          · simp only [emitBus, hd, hf, hev, hne, hs]
            exact ⟨_, rfl⟩

theorem runThunk_disposed (t : Thunk) (st : Bus) :
    (runThunk t st).1.disposed = st.disposed :=
  (invokeSnap_state t.key t.snap t.args st).1

theorem runThunks_disposed (q : List Thunk) (st : Bus) :
    (runThunks q st).1.disposed = st.disposed := by
  induction q generalizing st with
  | nil => rfl
  | cons t rest ih =>
      simp only [runThunks]
      exact (ih (runThunk t st).1).trans (runThunk_disposed t st)

/-! ### The claims -/

/-- Claim C1: a listener registered via `once` should be invoked at most once
ever, even if `emit` is called for its key multiple times before any delivery
has run.  On a deferred-mode bus this fails: `emit` snapshots the collection
synchronously, so two emissions in the same tick both capture the wrapper,
and the user listener (id 1) runs twice — the wrapper's second self-dispose
even logs the disposable double-dispose warning.  On a sync-mode bus the same
scenario invokes the listener once, as documented. -/
theorem c1_deferred_once_invoked_twice :
    invokedCount 1 (traceOf (runOps c1prog (mkBus false))) = 2 ∧
    Ev.warn warnDisposable ∈ traceOf (runOps c1prog (mkBus false)) ∧
    invokedCount 1 (traceOf (runOps c1syncProg (mkBus true))) = 1 :=
  ⟨by decide, by decide, by decide⟩

/-- Claim C2 counterexample: the claim says the snapshot is taken inside the
deferred unit.  In the code it is taken synchronously during `emit`: after
registering listener 1, emitting (deferred), and disposing the registration
handle before yielding, the code still fires listener 1, while the
spec-modelled variant (snapshot deferred) fires nothing. -/
theorem c2_counterexample_snapshot_is_synchronous :
    firedOf (traceOf (runOps c2prog (mkBus false))) = [(1, [5])] ∧
    firedOf c2SpecTrace = [] :=
  ⟨by decide, by decide⟩

/-- Claim C2 (amended): on a deferred-mode bus, `emit` returns immediately
without having invoked any listener, but the snapshot of the listener
collection is taken synchronously during `emit` and stored in the enqueued
thunk; only marking the firing set and invoking the snapshotted listeners run
later, as one deferred unit that fires exactly that snapshot and restores the
firing set. -/
theorem c2_amended_deferred_emit (st : Bus) (k : String) (args : List Nat)
    (sid : Nat) (hd : st.disposed = false) (hf : k ∉ st.firing)
    (hs : st.sync = false) (he : alookup st.events k = some sid)
    (hne : getMembers st sid ≠ []) :
    emitBus k args st =
      .ok ({ st with queue := st.queue ++ [⟨k, getMembers st sid, args⟩] }, []) ∧
    (∀ st3 : Bus, firedOf (runThunk ⟨k, getMembers st sid, args⟩ st3).2 =
        (getMembers st sid).map (fun l => (l, args))) ∧
    (∀ st3 : Bus, k ∉ st3.firing →
        (runThunk ⟨k, getMembers st sid, args⟩ st3).1.firing = st3.firing) :=
  ⟨emitBus_deferred_eq st k args sid hd hf hs he hne,
   fun st3 => invokeSnap_fired k (getMembers st sid) args st3,
   fun st3 hf3 => invokeSnap_firing k (getMembers st sid) args st3 hf3⟩

/-- Witness for the amended C2 at a concrete deferred bus with listener 1 on
key `"foo"`. -/
theorem c2_amended_deferred_emit_witness :
    c2wBus.disposed = false ∧ "foo" ∉ c2wBus.firing ∧ c2wBus.sync = false ∧
    alookup c2wBus.events "foo" = some 0 ∧ getMembers c2wBus 0 ≠ [] ∧
    (emitBus "foo" [7] c2wBus =
        .ok ({ c2wBus with queue := c2wBus.queue ++ [⟨"foo", getMembers c2wBus 0, [7]⟩] }, []) ∧
      (∀ st3 : Bus, firedOf (runThunk ⟨"foo", getMembers c2wBus 0, [7]⟩ st3).2 =
          (getMembers c2wBus 0).map (fun l => (l, [7]))) ∧
      (∀ st3 : Bus, "foo" ∉ st3.firing →
          (runThunk ⟨"foo", getMembers c2wBus 0, [7]⟩ st3).1.firing = st3.firing)) :=
  ⟨by decide, by decide, by decide, by decide, by decide,
   c2_amended_deferred_emit c2wBus "foo" [7] 0 (by decide) (by decide) (by decide)
     (by decide) (by decide)⟩

/-- Claim C3 counterexample: `dispose(k)` is claimed to remove only key `k`'s
collection for every key and leave the bus active.  The source tests the
argument with `if (event)`, so for the falsy key `""` it takes the full-
disposal branch instead: the whole map is cleared (key `"x"` included), the
bus becomes fully disposed, and subsequent register and emit calls throw. -/
theorem c3_counterexample_empty_key_fully_disposes :
    (stateOf (disposeBus (some "") c3bus)).disposed = true ∧
    alookup (stateOf (disposeBus (some "") c3bus)).events "x" = none ∧
    onCore "x" 3 (stateOf (disposeBus (some "") c3bus)) = .error busErr ∧
    emitBus "x" [] (stateOf (disposeBus (some "") c3bus)) = .error busErr :=
  ⟨by decide, by decide, rfl, rfl⟩

/-- Claim C3 (amended): for every non-fully-disposed bus and every non-empty
event key `k`, `dispose(k)` removes only `k`'s listener collection: every
other key's collection is unchanged, the bus does not become fully disposed,
and subsequent register and emit calls still succeed. -/
theorem c3_amended_dispose_nonempty_key (st : Bus) (k : String)
    (hd : st.disposed = false) (hk : k ≠ "") :
    disposeBus (some k) st = .ok ({ st with events := adel st.events k }, []) ∧
    alookup (adel st.events k) k = none ∧
    (∀ k2, k2 ≠ k → alookup (adel st.events k) k2 = alookup st.events k2) ∧
    ({ st with events := adel st.events k } : Bus).disposed = false ∧
    (∀ k2 l, ∃ r, onCore k2 l { st with events := adel st.events k } = .ok r) ∧
    (∀ k2 args, ∃ r, emitBus k2 args { st with events := adel st.events k } = .ok r) :=
  ⟨by simp [disposeBus, hd, hk], alookup_adel_self st.events k,
   fun k2 h2 => alookup_adel_ne st.events k k2 h2, hd,
   fun k2 l => onCore_ok k2 l _ hd, fun k2 args => emitBus_ok k2 args _ hd⟩

/-- Witness for the amended C3 on the concrete bus `c3bus` and key `"x"`. -/
theorem c3_amended_dispose_nonempty_key_witness :
    c3bus.disposed = false ∧ "x" ≠ "" ∧
    (disposeBus (some "x") c3bus = .ok ({ c3bus with events := adel c3bus.events "x" }, []) ∧
      alookup (adel c3bus.events "x") "x" = none ∧
      (∀ k2, k2 ≠ "x" → alookup (adel c3bus.events "x") k2 = alookup c3bus.events k2) ∧
      ({ c3bus with events := adel c3bus.events "x" } : Bus).disposed = false ∧
      (∀ k2 l, ∃ r, onCore k2 l { c3bus with events := adel c3bus.events "x" } = .ok r) ∧
      (∀ k2 args, ∃ r, emitBus k2 args { c3bus with events := adel c3bus.events "x" } = .ok r)) :=
  ⟨by decide, by decide, c3_amended_dispose_nonempty_key c3bus "x" (by decide) (by decide)⟩

/-- Claim C4: for every emission that reaches dispatch, the listeners fired
are exactly those in the snapshot of the key's collection taken before any
invocation, in insertion order, each with the emitted arguments.  The
listener bodies are quantified over, so registrations and removals performed
by listeners during the emission cannot change which listeners fire on this
call.  A deferred dispatch unit likewise fires exactly its stored snapshot. -/
theorem c4_snapshot_consistency (st : Bus) (k : String) (args : List Nat)
    (sid : Nat) (hd : st.disposed = false) (hf : k ∉ st.firing)
    (hs : st.sync = true) (he : alookup st.events k = some sid)
    (hne : getMembers st sid ≠ []) :
    emitBus k args st = .ok (invokeSnap k (getMembers st sid) args st) ∧
    firedOf (invokeSnap k (getMembers st sid) args st).2 =
      (getMembers st sid).map (fun l => (l, args)) ∧
    ∀ (t : Thunk) (st3 : Bus), firedOf (runThunk t st3).2 =
      t.snap.map (fun l => (l, t.args)) :=
  ⟨emitBus_sync_eq st k args sid hd hf hs he hne,
   invokeSnap_fired k (getMembers st sid) args st,
   fun t st3 => invokeSnap_fired t.key t.snap t.args st3⟩

/-- Witness for C4 on a concrete bus whose first listener removes the second
listener's registration mid-dispatch; both still fire. -/
theorem c4_snapshot_consistency_witness :
    c4bus.disposed = false ∧ "foo" ∉ c4bus.firing ∧ c4bus.sync = true ∧
    alookup c4bus.events "foo" = some 0 ∧ getMembers c4bus 0 ≠ [] ∧
    (emitBus "foo" [9] c4bus = .ok (invokeSnap "foo" (getMembers c4bus 0) [9] c4bus) ∧
      firedOf (invokeSnap "foo" (getMembers c4bus 0) [9] c4bus).2 =
        (getMembers c4bus 0).map (fun l => (l, [9])) ∧
      ∀ (t : Thunk) (st3 : Bus), firedOf (runThunk t st3).2 =
        t.snap.map (fun l => (l, t.args))) :=
  ⟨by decide, by decide, by decide, by decide, by decide,
   c4_snapshot_consistency c4bus "foo" [9] 0 (by decide) (by decide) (by decide)
     (by decide) (by decide)⟩

/-- Claim C5: when the listener at position `j` of the snapshot throws, every
snapshot listener still fires in order with the emitted arguments, an
error-level diagnostic is recorded, `emit` returns normally instead of
propagating the throw, and the firing-set mark for the key is removed. -/
theorem c5_failure_isolation (st : Bus) (k : String) (args : List Nat)
    (sid : Nat) (j : Nat) (b : List Action)
    (hd : st.disposed = false) (hf : k ∉ st.firing) (hs : st.sync = true)
    (he : alookup st.events k = some sid)
    (hj : j < (getMembers st sid).length)
    (hb : behaviorOf st ((getMembers st sid).get ⟨j, hj⟩) = .plain b)
    (hmem : Action.throwErr ∈ b) :
    emitBus k args st = .ok (invokeSnap k (getMembers st sid) args st) ∧
    firedOf (invokeSnap k (getMembers st sid) args st).2 =
      (getMembers st sid).map (fun l => (l, args)) ∧
    Ev.errorLogged ∈ (invokeSnap k (getMembers st sid) args st).2 ∧
    (invokeSnap k (getMembers st sid) args st).1.firing = st.firing := by
  have hne : getMembers st sid ≠ [] := by
    intro hnil
    rw [hnil] at hj
    exact absurd hj (Nat.not_lt_zero j)
  refine ⟨emitBus_sync_eq st k args sid hd hf hs he hne,
          invokeSnap_fired k (getMembers st sid) args st, ?_,
          invokeSnap_firing k (getMembers st sid) args st hf⟩
  show Ev.errorLogged ∈ (dispatchSnap (getMembers st sid) args
      { st with firing := addFiring k st.firing }).2
  exact dispatchSnap_errorLogged (getMembers st sid) args
    { st with firing := addFiring k st.firing } j hj b hd hb hmem

/-- Witness for C5 on a concrete bus whose first listener throws: both
listeners fire, the error is logged, and the firing mark is gone. -/
theorem c5_failure_isolation_witness :
    c5bus.disposed = false ∧ "foo" ∉ c5bus.firing ∧ c5bus.sync = true ∧
    alookup c5bus.events "foo" = some 0 ∧ (0 < (getMembers c5bus 0).length) ∧
    behaviorOf c5bus 1 = .plain [Action.throwErr] ∧
    (emitBus "foo" [4] c5bus = .ok (invokeSnap "foo" (getMembers c5bus 0) [4] c5bus) ∧
      firedOf (invokeSnap "foo" (getMembers c5bus 0) [4] c5bus).2 =
        (getMembers c5bus 0).map (fun l => (l, [4])) ∧
      Ev.errorLogged ∈ (invokeSnap "foo" (getMembers c5bus 0) [4] c5bus).2 ∧
      (invokeSnap "foo" (getMembers c5bus 0) [4] c5bus).1.firing = c5bus.firing) :=
  ⟨by decide, by decide, by decide, by decide, by decide, by decide,
   c5_failure_isolation c5bus "foo" [4] 0 0 [Action.throwErr] (by decide) (by decide)
     (by decide) (by decide) (by decide) (by decide) (by decide)⟩

/-- Claim C7: whenever `emit(k)` is called while `k` is in the firing set, the
call records the reentrancy warning identifying `k`, invokes no listener, and
returns with the bus state completely unchanged, so the bus remains usable
and no nested dispatch of a key occurs while that key is mid-dispatch. -/
theorem c7_reentrant_emit_warns_and_noop (st : Bus) (k : String) (args : List Nat)
    (hd : st.disposed = false) (hf : k ∈ st.firing) :
    emitBus k args st = .ok (st, [Ev.warn (recursiveWarn k)]) ∧
    firedOf [Ev.warn (recursiveWarn k)] = [] ∧
    ∀ l, invokedCount l [Ev.warn (recursiveWarn k)] = 0 :=
  ⟨by simp [emitBus, hd, hf], by simp [firedOf_cons_warn, firedOf_nil],
   fun l => rfl⟩

/-- Witness for C7 on a concrete bus whose firing set contains `"foo"`. -/
theorem c7_reentrant_emit_warns_and_noop_witness :
    ({ mkBus true with firing := ["foo"] } : Bus).disposed = false ∧
    "foo" ∈ ({ mkBus true with firing := ["foo"] } : Bus).firing ∧
    (emitBus "foo" [1] { mkBus true with firing := ["foo"] } =
        .ok ({ mkBus true with firing := ["foo"] }, [Ev.warn (recursiveWarn "foo")]) ∧
      firedOf [Ev.warn (recursiveWarn "foo")] = [] ∧
      ∀ l, invokedCount l [Ev.warn (recursiveWarn "foo")] = 0) :=
  ⟨by decide, by decide,
   c7_reentrant_emit_warns_and_noop { mkBus true with firing := ["foo"] } "foo" [1]
     (by decide) (by decide)⟩

/-- Claim C6: `dispose()` with no key clears every key's listeners and makes
the bus fully disposed; afterwards every `on`, `emit`, or `dispose` call
throws the fixed disposed-bus error; and no operation can ever leave a
disposed bus undisposed again. -/
theorem c6_full_dispose_terminal :
    (∀ st : Bus, st.disposed = false →
        disposeBus none st = .ok ({ st with events := [], disposed := true }, [])) ∧
    (∀ st : Bus, st.disposed = true →
        (∀ k l, onCore k l st = .error busErr) ∧
        (∀ k args, emitBus k args st = .error busErr) ∧
        (∀ e, disposeBus e st = .error busErr)) ∧
    (∀ (op : Op) (st st2 : Bus) (tr : List Ev), st.disposed = true →
        stepOp op st = .ok (st2, tr) → st2.disposed = true) := by
  refine ⟨?_, ?_, ?_⟩
  · intro st hd
    simp [disposeBus, hd]
  · intro st hd
    exact ⟨fun k l => by simp [onCore, hd], fun k args => by simp [emitBus, hd],
           fun e => by simp [disposeBus, hd]⟩
  · intro op st st2 tr hd hstep
    cases op
    · simp [stepOp, onUser, onCore, hd] at hstep
    · simp [stepOp, onceBus, onCore, hd] at hstep
    · simp [stepOp, emitBus, hd] at hstep
    · rename_i h
      simp only [stepOp, Except.ok.injEq] at hstep
      have h1 : (hDispose h st).1 = st2 := congrArg Prod.fst hstep
      rw [← h1, (hDispose_state h st).1]
      exact hd
    · simp [stepOp, disposeBus, hd] at hstep
    · simp only [stepOp, Except.ok.injEq] at hstep
      have h1 : (runMicrotasks st).1 = st2 := congrArg Prod.fst hstep
      rw [← h1]
      show (runThunks st.queue { st with queue := [] }).1.disposed = true
      rw [runThunks_disposed]
      exact hd

/-- Witness for C6: full disposal of a fresh bus, and the disposed error on a
disposed bus. -/
theorem c6_full_dispose_terminal_witness :
    ((mkBus true).disposed = false ∧
      disposeBus none (mkBus true) =
        .ok ({ mkBus true with events := [], disposed := true }, [])) ∧
    (({ mkBus true with disposed := true } : Bus).disposed = true ∧
      emitBus "a" [] { mkBus true with disposed := true } = .error busErr) :=
  ⟨⟨rfl, c6_full_dispose_terminal.1 (mkBus true) rfl⟩,
   ⟨rfl, (c6_full_dispose_terminal.2.1 { mkBus true with disposed := true } rfl).2.1 "a" []⟩⟩

/-- Helper for C10: emitting a key whose only listener is a `once` wrapper
around a listener that throws immediately leaves the state unchanged — the
wrapper never reaches its self-dispose. -/
theorem onceWrap_throw_emit (st1 : Bus) (k : String) (w inner : Nat)
    (rest : List Action) (h : Nat) (args : List Nat) (sid : Nat)
    (hd : st1.disposed = false) (hs : st1.sync = true) (hf : k ∉ st1.firing)
    (he : alookup st1.events k = some sid)
    (hm : getMembers st1 sid = [w])
    (hbw : behaviorOf st1 w = .onceWrap inner (Action.throwErr :: rest) h) :
    emitBus k args st1 = .ok (st1,
      [Ev.fired w args, Ev.invoked w args, Ev.invoked inner args, Ev.errorLogged]) := by
  have hne : getMembers st1 sid ≠ [] := by
    rw [hm]
    simp
  have he2 := emitBus_sync_eq st1 k args sid hd hf hs he hne
  rw [hm] at he2
  rw [he2]
  have hbw2 : behaviorOf { st1 with firing := addFiring k st1.firing } w =
      .onceWrap inner (Action.throwErr :: rest) h := hbw
  have hrl : runListener w args { st1 with firing := addFiring k st1.firing } =
      ({ st1 with firing := addFiring k st1.firing }, [Ev.invoked inner args], true) := by
    simp [runListener, hbw2, runBody, runAction]
  have hds : dispatchSnap [w] args { st1 with firing := addFiring k st1.firing } =
      ({ st1 with firing := addFiring k st1.firing },
       [Ev.fired w args, Ev.invoked w args, Ev.invoked inner args, Ev.errorLogged]) := by
    simp [dispatchSnap, hrl]
  have hfr : (addFiring k st1.firing).erase k = st1.firing := by
    rw [addFiring, if_neg hf, List.erase_append_right _ hf, List.erase_cons_head,
        List.append_nil]
  simp only [invokeSnap, hds, hfr]

/-- Claim C10: if a listener registered via `once` throws on its first
invocation, the wrapper's self-dispose is never reached: the handle stays
undisposed, the wrapper stays in the key's collection, and the listener is
invoked again — with the error logged again — on the next emission. -/
theorem c10_once_throwing_listener_stays_registered (st0 : Bus) (k : String)
    (w inner : Nat) (rest : List Action) (args args2 : List Nat)
    (hd : st0.disposed = false) (hs : st0.sync = true) (hf : k ∉ st0.firing)
    (hev : alookup st0.events k = none) :
    ∃ st1 : Bus,
      onceBus k w inner (Action.throwErr :: rest) st0 = .ok (st1, st0.nextHandle) ∧
      alookup st1.events k = some st0.nextSet ∧
      getMembers st1 st0.nextSet = [w] ∧
      emitBus k args st1 = .ok (st1,
        [Ev.fired w args, Ev.invoked w args, Ev.invoked inner args, Ev.errorLogged]) ∧
      (nlookup st1.handles st0.nextHandle).map Handle.isDisp = some false ∧
      emitBus k args2 st1 = .ok (st1,
        [Ev.fired w args2, Ev.invoked w args2, Ev.invoked inner args2, Ev.errorLogged]) := by
  refine ⟨{ st0 with
      events := st0.events ++ [(k, st0.nextSet)],
      sets := nset st0.sets st0.nextSet [w],
      behaviors := nset st0.behaviors w
        (.onceWrap inner (Action.throwErr :: rest) st0.nextHandle),
      handles := nset st0.handles st0.nextHandle ⟨st0.nextSet, w, false⟩,
      nextSet := st0.nextSet + 1,
      nextHandle := st0.nextHandle + 1 }, ?_, ?_, ?_, ?_, ?_, ?_⟩
  case _ => simp [onceBus, onCore, hd, hev]
  case _ =>
      show alookup (st0.events ++ [(k, st0.nextSet)]) k = some st0.nextSet
      rw [alookup_append_of_none st0.events _ k hev]
      simp [alookup]
  case _ => simp [getMembers, nlookup_nset_self]
  case _ =>
      refine onceWrap_throw_emit _ k w inner rest st0.nextHandle args st0.nextSet
        hd hs hf ?_ ?_ ?_
      · show alookup (st0.events ++ [(k, st0.nextSet)]) k = some st0.nextSet
        rw [alookup_append_of_none st0.events _ k hev]
        simp [alookup]
      · simp [getMembers, nlookup_nset_self]
      · simp [behaviorOf, nlookup_nset_self]
  case _ => simp [nlookup_nset_self]
  case _ =>
      refine onceWrap_throw_emit _ k w inner rest st0.nextHandle args2 st0.nextSet
        hd hs hf ?_ ?_ ?_
      · show alookup (st0.events ++ [(k, st0.nextSet)]) k = some st0.nextSet
        rw [alookup_append_of_none st0.events _ k hev]
        simp [alookup]
      · simp [getMembers, nlookup_nset_self]
      · simp [behaviorOf, nlookup_nset_self]

/-- Witness for C10 on a fresh sync bus: wrapper 7 around throwing listener 3
on key `"foo"`, emitted twice. -/
theorem c10_once_throwing_listener_stays_registered_witness :
    (mkBus true).disposed = false ∧ (mkBus true).sync = true ∧
    "foo" ∉ (mkBus true).firing ∧ alookup (mkBus true).events "foo" = none ∧
    (∃ st1 : Bus,
      onceBus "foo" 7 3 [Action.throwErr] (mkBus true) = .ok (st1, 0) ∧
      alookup st1.events "foo" = some 0 ∧
      getMembers st1 0 = [7] ∧
      emitBus "foo" [1] st1 = .ok (st1,
        [Ev.fired 7 [1], Ev.invoked 7 [1], Ev.invoked 3 [1], Ev.errorLogged]) ∧
      (nlookup st1.handles 0).map Handle.isDisp = some false ∧
      emitBus "foo" [2] st1 = .ok (st1,
        [Ev.fired 7 [2], Ev.invoked 7 [2], Ev.invoked 3 [2], Ev.errorLogged])) :=
  ⟨rfl, rfl, by decide, rfl,
   c10_once_throwing_listener_stays_registered (mkBus true) "foo" 7 3 [] [1] [2]
     rfl rfl (by decide) rfl⟩

/-- Claim C8: release is idempotent.  A bound, undisposed function disposable
runs its cleanup exactly once; a second `dispose()` warns, changes nothing,
and does not throw.  A disposed store's `dispose()` warns and re-releases
nothing, both directly and after a successful first disposal.  Disposing a
bus registration handle twice leaves the same bus state as disposing once. -/
theorem c8_idempotent_release :
    (∀ d : FDisp, d.bound = true → d.isDisp = false →
        FDisp.dispose d = .ok ({ d with runs := d.runs + 1, isDisp := true }, []) ∧
        FDisp.dispose { d with runs := d.runs + 1, isDisp := true } =
          .ok ({ d with runs := d.runs + 1, isDisp := true }, [Ev.warn warnDisposable])) ∧
    (∀ (s : DStore) (env : Nat → FDisp), s.disposed = true →
        storeDispose s env = .ok ((s, env), [Ev.warn warnStoreDispose])) ∧
    (∀ (s s1 : DStore) (env env1 : Nat → FDisp) (tr : List Ev),
        s.disposed = false → storeDispose s env = .ok ((s1, env1), tr) →
        storeDispose s1 env1 = .ok ((s1, env1), [Ev.warn warnStoreDispose])) ∧
    (∀ (st : Bus) (h : Nat), (hDispose h (hDispose h st).1).1 = (hDispose h st).1) := by
  refine ⟨?_, ?_, ?_, ?_⟩
  · intro d hb hi
    exact ⟨by simp [FDisp.dispose, hb, hi], by simp [FDisp.dispose]⟩
  · intro s env hs
    simp [storeDispose, hs]
  · intro s s1 env env1 tr hs hok
    have hs1 : s1.disposed = true := by
      unfold storeDispose at hok
      rw [hs] at hok
      simp only [Bool.false_eq_true, if_false] at hok
      cases hitems : storeItemsDispose s.items env with
      | ok r =>
          obtain ⟨env2, tr2⟩ := r
          rw [hitems] at hok
          simp only [Except.ok.injEq, Prod.mk.injEq] at hok
          rw [← hok.1.1]
      | error e =>
          rw [hitems] at hok
          exact absurd hok (by simp)
    simp [storeDispose, hs1]
  · intro st h
    cases hh : nlookup st.handles h with
    | none => simp [hDispose, hh]
    | some hd =>
        by_cases hi : hd.isDisp
        · simp [hDispose, hh, hi]
        · have h1 : (hDispose h st).1 = { st with
              sets := nset st.sets hd.sid ((getMembers st hd.sid).erase hd.lid),
              handles := nset st.handles h ⟨hd.sid, hd.lid, true⟩ } := by
            simp [hDispose, hh, hi]
          rw [h1]
          simp [hDispose, nlookup_nset_self]

/-- Witness for C8: a fresh bound disposable, a retired empty store, a live
empty store disposed twice, and a concrete bus handle disposed twice. -/
theorem c8_idempotent_release_witness :
    ((FDisp.mk true 0 false).bound = true ∧ (FDisp.mk true 0 false).isDisp = false ∧
      (FDisp.dispose (FDisp.mk true 0 false) = .ok (FDisp.mk true 1 true, []) ∧
        FDisp.dispose (FDisp.mk true 1 true) =
          .ok (FDisp.mk true 1 true, [Ev.warn warnDisposable]))) ∧
    storeDispose (DStore.mk [] true) (fun _ => FDisp.mk true 0 false) =
      .ok ((DStore.mk [] true, fun _ => FDisp.mk true 0 false),
           [Ev.warn warnStoreDispose]) ∧
    storeDispose (DStore.mk [] true) (fun _ => FDisp.mk true 0 false) =
      .ok ((DStore.mk [] true, fun _ => FDisp.mk true 0 false),
           [Ev.warn warnStoreDispose]) ∧
    (hDispose 0 (hDispose 0 c2wBus).1).1 = (hDispose 0 c2wBus).1 :=
  ⟨⟨rfl, rfl, c8_idempotent_release.1 (FDisp.mk true 0 false) rfl rfl⟩,
   c8_idempotent_release.2.1 (DStore.mk [] true) (fun _ => FDisp.mk true 0 false) rfl,
   c8_idempotent_release.2.2.1 (DStore.mk [] false) (DStore.mk [] true)
     (fun _ => FDisp.mk true 0 false) (fun _ => FDisp.mk true 0 false) [] rfl rfl,
   c8_idempotent_release.2.2.2 c2wBus 0⟩

/-- Claim C9: adding a disposable to a retired store does not retain it: the
store is unchanged, the candidate is released immediately, the retired-store
warning is surfaced, and `add` still returns the candidate. -/
theorem c9_add_to_retired_store (s : DStore) (env : Nat → FDisp) (d : Nat)
    (hs : s.disposed = true) (hb : (env d).bound = true) :
    ∃ (env1 : Nat → FDisp) (tr : List Ev),
      storeAdd s env d = .ok ((s, env1), Ev.warn warnAddStore :: tr, d) ∧
      (env1 d).isDisp = true ∧
      (∀ n, n ≠ d → env1 n = env n) := by
  by_cases hi : (env d).isDisp
  · refine ⟨fun n => if n = d then env d else env n, [Ev.warn warnDisposable],
      ?_, ?_, ?_⟩
    · simp [storeAdd, hs, envDispose, FDisp.dispose, hi]
    · simp [hi]
    · intro n hn
      simp [hn]
  · refine ⟨fun n => if n = d then { env d with runs := (env d).runs + 1, isDisp := true }
        else env n, [], ?_, ?_, ?_⟩
    · simp [storeAdd, hs, envDispose, FDisp.dispose, hi, hb]
    · simp
    · intro n hn
      simp [hn]

/-- Witness for C9: adding disposable 5 to a retired empty store. -/
theorem c9_add_to_retired_store_witness :
    (DStore.mk [] true).disposed = true ∧
    ((fun _ => FDisp.mk true 0 false : Nat → FDisp) 5).bound = true ∧
    (∃ (env1 : Nat → FDisp) (tr : List Ev),
      storeAdd (DStore.mk [] true) (fun _ => FDisp.mk true 0 false) 5 =
        .ok ((DStore.mk [] true, env1), Ev.warn warnAddStore :: tr, 5) ∧
      (env1 5).isDisp = true ∧
      (∀ n, n ≠ 5 → env1 n = (fun _ => FDisp.mk true 0 false : Nat → FDisp) n)) :=
  ⟨rfl, rfl,
   c9_add_to_retired_store (DStore.mk [] true) (fun _ => FDisp.mk true 0 false) 5 rfl rfl⟩

end Pulse
